import Mathlib

/-!
Verification of the core of the `gimini_tts` repository: the PCM→WAV
container encoder (`src/utils/audio.ts`, function `pcmToWav`) and the
job-queue processor of `src/pages/Home.tsx` (`processQueue`,
`handleAddToQueue`, `handleGenerateSingle`, `handleDelete`).

The encoder is embedded as a pure function over a byte buffer modelled as
a length together with an index→byte function (the `ArrayBuffer`/`DataView`
pair of the source).  The queue processor is embedded as explicit state
passing over a `ProcState` record.  `processQueue` lives in an effect keyed
on `[items, isProcessing]`, and the mark-GENERATING `setItems` of each pick
re-triggers that effect while the awaited `generateSpeech` call is still
outstanding, so picks cascade and several calls can be in flight at once:
the embedding separates the synchronous effect body (`effectRun`) from the
resolution of an individual outstanding call (`resolveCall`), which may
interleave in any order.
-/

set_option autoImplicit false

namespace GiminiTTS

/-- A byte buffer: the `ArrayBuffer` of the source, as a length plus the
byte stored at each index.  `DataView` writes become functional updates. -/
structure ByteBuf where
  len : Nat
  data : Nat → Nat

/-- Embeds `DataView.setUint8` (little-endian writes are built from this): store
the value truncated to one byte at the given offset. -/
def setUint8 (b : ByteBuf) (off v : Nat) : ByteBuf :=
  { b with data := fun i => if i = off then v % 256 else b.data i }

/-- Embeds `DataView.setUint16(off, v, true)`: little-endian 16-bit write. -/
def setUint16 (b : ByteBuf) (off v : Nat) : ByteBuf :=
  setUint8 (setUint8 b off v) (off + 1) (v / 2 ^ 8)

/-- Embeds `DataView.setUint32(off, v, true)`: little-endian 32-bit write. -/
def setUint32 (b : ByteBuf) (off v : Nat) : ByteBuf :=
  setUint8 (setUint8 (setUint8 (setUint8 b off v) (off + 1) (v / 2 ^ 8))
    (off + 2) (v / 2 ^ 16)) (off + 3) (v / 2 ^ 24)

/-- Helper for `writeString`: write the char codes of a character list at
consecutive offsets (the loop body of `writeString` in the source). -/
def writeChars (b : ByteBuf) (off : Nat) : List Char → ByteBuf
  | [] => b
  | c :: cs => writeChars (setUint8 b off c.toNat) (off + 1) cs

/-- Embeds `writeString(view, offset, string)` from `src/utils/audio.ts`: write
each `charCodeAt(i)` at `offset + i`. -/
def writeString (b : ByteBuf) (off : Nat) (s : String) : ByteBuf :=
  writeChars b off s.data

/-- Embeds `Uint8Array.set` at a given offset: copy the data bytes one after the
other (each stored mod 256, as a `Uint8Array` does). -/
def writeBytes (b : ByteBuf) (off : Nat) : List Nat → ByteBuf
  | [] => b
  | v :: vs => writeBytes (setUint8 b off v) (off + 1) vs

/-- Little-endian 16-bit read at an offset (used to state header facts). -/
def readU16 (b : ByteBuf) (off : Nat) : Nat :=
  b.data off + 2 ^ 8 * b.data (off + 1)

/-- Little-endian 32-bit read at an offset (used to state header facts). -/
def readU32 (b : ByteBuf) (off : Nat) : Nat :=
  b.data off + 2 ^ 8 * b.data (off + 1) + 2 ^ 16 * b.data (off + 2) +
    2 ^ 24 * b.data (off + 3)

/-- Embeds `pcmToWav(pcmData, sampleRate = 24000, numChannels = 1)` from
`src/utils/audio.ts`: wrap raw PCM bytes in a 44-byte WAV header.  The
source performs no input validation; this embedding mirrors each header
write in order. -/
def pcmToWav (pcmData : List Nat) (sampleRate : Nat) (numChannels : Nat) :
    ByteBuf :=
  let bytesPerSample := 2
  let blockAlign := numChannels * bytesPerSample
  let byteRate := sampleRate * blockAlign
  let dataSize := pcmData.length
  let fileSize := 36 + dataSize
  let buffer : ByteBuf := { len := 44 + dataSize, data := fun _ => 0 }
  let b := writeString buffer 0 "RIFF"
  let b := setUint32 b 4 fileSize
  let b := writeString b 8 "WAVE"
  let b := writeString b 12 "fmt "
  let b := setUint32 b 16 16
  let b := setUint16 b 20 1
  let b := setUint16 b 22 numChannels
  let b := setUint32 b 24 sampleRate
  let b := setUint32 b 28 byteRate
  let b := setUint16 b 32 blockAlign
  let b := setUint16 b 34 16
  let b := writeString b 36 "data"
  let b := setUint32 b 40 dataSize
  writeBytes b 44 pcmData

theorem setUint8_len (b : ByteBuf) (off v : Nat) :
    (setUint8 b off v).len = b.len := rfl

theorem writeChars_len (cs : List Char) (b : ByteBuf) (off : Nat) :
    (writeChars b off cs).len = b.len := by
  induction cs generalizing b off with
  | nil => rfl
  | cons c cs ih => simp [writeChars, ih, setUint8_len]

theorem writeBytes_len (data : List Nat) (b : ByteBuf) (off : Nat) :
    (writeBytes b off data).len = b.len := by
  induction data generalizing b off with
  | nil => rfl
  | cons v vs ih => simp [writeBytes, ih, setUint8_len]

theorem writeBytes_data_lt (data : List Nat) (b : ByteBuf) (off i : Nat)
    (h : i < off) : (writeBytes b off data).data i = b.data i := by
  induction data generalizing b off with
  | nil => rfl
  | cons v vs ih =>
    rw [writeBytes, ih _ _ (Nat.lt_succ_of_lt h)]
    simp [setUint8]
    omega

theorem writeBytes_data_get (data : List Nat) (b : ByteBuf) (off i : Nat)
    (h : i < data.length) :
    (writeBytes b off data).data (off + i) = data.getD i 0 % 256 := by
  induction data generalizing b off i with
  | nil => simp at h
  | cons v vs ih =>
    match i with
    | 0 =>
      rw [writeBytes, writeBytes_data_lt _ _ _ _ (by omega)]
      simp [setUint8]
    | Nat.succ k =>
      rw [writeBytes]
      have : off + (k + 1) = (off + 1) + k := by omega
      rw [this, ih _ _ _ (by simpa using h)]
      rfl

theorem riff_chars : "RIFF".data = ['R', 'I', 'F', 'F'] := rfl

theorem wave_chars : "WAVE".data = ['W', 'A', 'V', 'E'] := rfl

theorem fmt_chars : "fmt ".data = ['f', 'm', 't', ' '] := rfl

theorem datachunk_chars : "data".data = ['d', 'a', 't', 'a'] := rfl

set_option maxHeartbeats 3200000 in
/-- C1: `pcmToWav(pcmData, sr, ch)` returns a buffer of length
`44 + length pcmData`; bytes 0-3 are "RIFF"; the little-endian uint32 at
offset 4 is `36 + length pcmData`; bytes 8-11 are "WAVE"; bytes 12-15 are
"fmt "; uint32 at 16 is 16; uint16 at 20 is 1; uint16 at 22 is `ch`;
uint32 at 24 is `sr`; uint32 at 28 is `sr * ch * 2`; uint16 at 32 is
`ch * 2`; uint16 at 34 is 16; bytes 36-39 are "data"; uint32 at 40 is
`length pcmData`; and the bytes from offset 44 on are a verbatim copy of
`pcmData` (stated for inputs within the 16/32-bit ranges the DataView
writes truncate to). -/
theorem pcmToWav_header_spec (pcmData : List Nat) (sr ch : Nat)
    (hbytes : ∀ x ∈ pcmData, x < 256)
    (hsr : sr < 2 ^ 32) (hch : ch * 2 < 2 ^ 16)
    (hbr : sr * ch * 2 < 2 ^ 32) (hlen : 36 + pcmData.length < 2 ^ 32) :
    (pcmToWav pcmData sr ch).len = 44 + pcmData.length ∧
    ((pcmToWav pcmData sr ch).data 0 = 82 ∧
      (pcmToWav pcmData sr ch).data 1 = 73 ∧
      (pcmToWav pcmData sr ch).data 2 = 70 ∧
      (pcmToWav pcmData sr ch).data 3 = 70) ∧
    readU32 (pcmToWav pcmData sr ch) 4 = 36 + pcmData.length ∧
    ((pcmToWav pcmData sr ch).data 8 = 87 ∧
      (pcmToWav pcmData sr ch).data 9 = 65 ∧
      (pcmToWav pcmData sr ch).data 10 = 86 ∧
      (pcmToWav pcmData sr ch).data 11 = 69) ∧
    ((pcmToWav pcmData sr ch).data 12 = 102 ∧
      (pcmToWav pcmData sr ch).data 13 = 109 ∧
      (pcmToWav pcmData sr ch).data 14 = 116 ∧
      (pcmToWav pcmData sr ch).data 15 = 32) ∧
    readU32 (pcmToWav pcmData sr ch) 16 = 16 ∧
    readU16 (pcmToWav pcmData sr ch) 20 = 1 ∧
    readU16 (pcmToWav pcmData sr ch) 22 = ch ∧
    readU32 (pcmToWav pcmData sr ch) 24 = sr ∧
    readU32 (pcmToWav pcmData sr ch) 28 = sr * ch * 2 ∧
    readU16 (pcmToWav pcmData sr ch) 32 = ch * 2 ∧
    readU16 (pcmToWav pcmData sr ch) 34 = 16 ∧
    ((pcmToWav pcmData sr ch).data 36 = 100 ∧
      (pcmToWav pcmData sr ch).data 37 = 97 ∧
      (pcmToWav pcmData sr ch).data 38 = 116 ∧
      (pcmToWav pcmData sr ch).data 39 = 97) ∧
    readU32 (pcmToWav pcmData sr ch) 40 = pcmData.length ∧
    ∀ i, i < pcmData.length →
      (pcmToWav pcmData sr ch).data (44 + i) = pcmData.getD i 0 := by
  have hch' : ch < 2 ^ 16 := by omega
  refine ⟨?_, ⟨?_, ?_, ?_, ?_⟩, ?_, ⟨?_, ?_, ?_, ?_⟩, ⟨?_, ?_, ?_, ?_⟩,
    ?_, ?_, ?_, ?_, ?_, ?_, ?_, ⟨?_, ?_, ?_, ?_⟩, ?_, ?_⟩ <;>
    first
  | (simp [pcmToWav, writeBytes_len, writeChars_len, setUint8_len,
      setUint32, setUint16, writeString, riff_chars, wave_chars,
      fmt_chars, datachunk_chars, writeChars, readU32, readU16,
      writeBytes_data_lt, setUint8] <;> omega)
  | (intro i hi
     simp only [pcmToWav]
     rw [writeBytes_data_get _ _ _ _ hi]
     refine Nat.mod_eq_of_lt (hbytes _ ?_)
     rw [List.getD_eq_getElem _ _ hi]
     exact List.getElem_mem _)
  | (simp [pcmToWav, setUint32, setUint16, writeString, riff_chars,
      wave_chars, fmt_chars, datachunk_chars, writeChars, readU32,
      writeBytes_data_lt, setUint8]
     rw [Nat.mul_assoc]
     have hb : sr * (ch * 2) < 2 ^ 32 := by rw [← Nat.mul_assoc]; exact hbr
     omega)

/-- Witness for C1: the claim's own example, pcmData = 4 zero bytes,
sr = 24000, ch = 1 — output length 48, uint32 40 at offset 4, uint32 4 at
offset 40. -/
theorem pcmToWav_header_spec_witness :
    (pcmToWav [0, 0, 0, 0] 24000 1).len = 48 ∧
    readU32 (pcmToWav [0, 0, 0, 0] 24000 1) 4 = 40 ∧
    readU32 (pcmToWav [0, 0, 0, 0] 24000 1) 40 = 4 := by
  have h := pcmToWav_header_spec [0, 0, 0, 0] 24000 1
    (by decide) (by norm_num) (by norm_num) (by norm_num) (by norm_num)
  exact ⟨h.1, h.2.2.1, h.2.2.2.2.2.2.2.2.2.2.2.2.2.1⟩

/-- C6 counterexample: `pcmToWav` performs no input validation.  Called
with empty PCM data, sample rate 0 and channel count 0 it still returns a
complete 44-byte WAV buffer (starting with "RIFF") instead of rejecting
the call. -/
theorem pcmToWav_no_validation_counterexample :
    (pcmToWav [] 0 0).len = 44 ∧ (pcmToWav [] 0 0).data 0 = 82 := by
  constructor
  · rfl
  · rfl

/-- C6 amended: the encoder never rejects an input.  For every
`pcmData`, `sampleRate` and `channelCount` — including zero or degenerate
values and unaligned or empty data — `pcmToWav` totally returns a buffer
of length `44 + length pcmData` with a header computed from the given
values; no error is signalled. -/
theorem pcmToWav_total_no_reject (pcmData : List Nat) (sr ch : Nat) :
    (pcmToWav pcmData sr ch).len = 44 + pcmData.length := by
  simp [pcmToWav, writeBytes_len, writeChars_len, setUint8_len,
    setUint32, setUint16, writeString]

/-! ## Job queue processor (`src/pages/Home.tsx`) -/

/-- The `ItemStatus` type from `src/types.ts`. -/
inductive ItemStatus
  | PENDING
  | GENERATING
  | SUCCESS
  | ERROR
deriving DecidableEq

/-- The `AudioItem` record from `src/types.ts` (the fields the queue logic reads or
writes; the opaque object-URL string is modelled as a `Nat` handle). -/
structure AudioItem where
  id : Nat
  text : String
  systemInstruction : Option String
  voice : String
  model : String
  status : ItemStatus
  audioUrl : Option Nat
  createdAt : Nat
  error : Option String
  label : Option String
deriving DecidableEq

/-- The component state of `Home` relevant to the queue: the item list
and the processing flag, plus an explicit model of the browser URL store
(`URL.createObjectURL` returns the fresh handle `nextUrl`;
`URL.revokeObjectURL u` appends `u` to `revoked`).  `outstanding` is the
multiset of `nextItem` snapshots whose awaited `generateSpeech` calls
have been issued but have not yet resolved: because every mark-GENERATING
`setItems` re-triggers the `processQueue` effect, several calls can be
outstanding at once. -/
structure ProcState where
  items : List AudioItem
  isProcessing : Bool
  outstanding : List AudioItem
  nextUrl : Nat
  revoked : List Nat
deriving DecidableEq

/-- The state on mount: empty list, not processing, no calls in flight. -/
def initState : ProcState :=
  { items := [], isProcessing := false, outstanding := [], nextUrl := 0,
    revoked := [] }

/-- Embeds `startQueue`: set the processing flag. -/
def startQueue (s : ProcState) : ProcState := { s with isProcessing := true }

/-- The `setItems` mapper that marks the item with the given id
GENERATING.  A record spread: every other field, including a stale
`audioUrl` or `error`, is kept. -/
def markGenerating (id : Nat) (items : List AudioItem) : List AudioItem :=
  items.map fun i =>
    if i.id = id then { i with status := ItemStatus.GENERATING } else i

/-- The `setItems` mapper for a successful generation: status SUCCESS and
the freshly created object URL; all other fields are kept. -/
def applySuccess (id url : Nat) (items : List AudioItem) : List AudioItem :=
  items.map fun i =>
    if i.id = id then
      { i with status := ItemStatus.SUCCESS, audioUrl := some url }
    else i

/-- The `setItems` mapper for a failed generation: status ERROR and the
error message; all other fields are kept. -/
def applyError (id : Nat) (msg : String) (items : List AudioItem) :
    List AudioItem :=
  items.map fun i =>
    if i.id = id then { i with status := ItemStatus.ERROR, error := some msg }
    else i

/-- One synchronous run of the `processQueue` effect body up to its
`await`.  The effect fires after every commit of `items` or
`isProcessing`: when the flag is set it finds the first item in list
order whose status is PENDING; if none exists it clears the flag;
otherwise it snapshots the item as `nextItem`, marks it GENERATING and
issues the awaited `generateSpeech` call (appended to `outstanding`).
The mark itself re-triggers the effect, so the next run — and the next
pick — happens while this call is still outstanding.  The generation
call `gen` abstracts `generateSpeech` together with the API key check. -/
def effectRun (s : ProcState) : ProcState :=
  if s.isProcessing then
    match s.items.find? (fun i => i.status = ItemStatus.PENDING) with
    | none => { s with isProcessing := false }
    | some nextItem =>
      { s with items := markGenerating nextItem.id s.items,
               outstanding := s.outstanding ++ [nextItem] }
  else s

/-- Resolution of one outstanding `generateSpeech` call, for the snapshot
`nextItem`: the code after the `await` creates a fresh object URL and
replaces the item with the snapshot's id by a SUCCESS record; the catch
block replaces it by an ERROR record with `err.message || "Failed to
generate"`.  The resolved call leaves `outstanding`.  Calls resolve in
whatever order the network answers, independently of further effect
runs. -/
def resolveCall (gen : AudioItem → Except String Unit)
    (nextItem : AudioItem) (s : ProcState) : ProcState :=
  match gen nextItem with
  | Except.ok _ =>
    { s with items := applySuccess nextItem.id s.nextUrl s.items,
             nextUrl := s.nextUrl + 1,
             outstanding := s.outstanding.erase nextItem }
  | Except.error msg =>
    { s with items := applyError nextItem.id
               (if msg = "" then "Failed to generate" else msg) s.items,
             outstanding := s.outstanding.erase nextItem }

/-- JS `String.prototype.trim`, modelled executably: drop leading and
trailing whitespace. -/
def strTrim (s : String) : String :=
  String.mk (((s.data.dropWhile Char.isWhitespace).reverse.dropWhile
    Char.isWhitespace).reverse)

/-- Embeds `(items.length + 1).toString().padStart(2, '0')` of
`handleAddToQueue`. -/
def padLabel (n : Nat) : String :=
  if n < 10 then "0" ++ toString n else toString n

/-- Embeds `handleAddToQueue`: ignore blank text; otherwise build a fresh
PENDING item and prepend it (`[newItem, ...prev]`).  The unique fresh id
(`crypto.randomUUID()`) is supplied by the environment. -/
def handleAddToQueue (s : ProcState) (id : Nat)
    (text lab sysIns voice model : String) (createdAt : Nat) : ProcState :=
  if strTrim text = "" then s
  else
    let itemLabel :=
      if strTrim lab = "" then padLabel (s.items.length + 1) else strTrim lab
    let newItem : AudioItem :=
      { id := id, text := strTrim text,
        systemInstruction :=
          if strTrim sysIns = "" then none else some (strTrim sysIns),
        voice := voice, model := model, status := ItemStatus.PENDING,
        audioUrl := none, createdAt := createdAt, error := none,
        label := some itemLabel }
    { s with items := newItem :: s.items }

/-- First half of `handleGenerateSingle(id)`: look the item up — an
absent id returns immediately — otherwise snapshot it and mark it
GENERATING (a record spread: stale `audioUrl` and `error` are kept). -/
def generateSingleStart (s : ProcState) (id : Nat) :
    Option (AudioItem × ProcState) :=
  match s.items.find? (fun i => i.id = id) with
  | none => none
  | some itemToProcess =>
    some (itemToProcess, { s with items := markGenerating id s.items })

/-- Second half of `handleGenerateSingle(id)`: the awaited call resolves;
on success create a fresh URL and set SUCCESS, on failure set ERROR with
`err.message || "Failed"`.  The prior object URL, if any, is not
revoked. -/
def generateSingleFinish (gen : AudioItem → Except String Unit) (id : Nat)
    (itemToProcess : AudioItem) (s : ProcState) : ProcState :=
  match gen itemToProcess with
  | Except.ok _ =>
    { s with items := applySuccess id s.nextUrl s.items,
             nextUrl := s.nextUrl + 1 }
  | Except.error msg =>
    { s with items := applyError id (if msg = "" then "Failed" else msg)
               s.items }

/-- Runs `handleGenerateSingle(id)` to completion with no interleaving. -/
def handleGenerateSingle (gen : AudioItem → Except String Unit)
    (s : ProcState) (id : Nat) : ProcState :=
  match generateSingleStart s id with
  | none => s
  | some (it, s1) => generateSingleFinish gen id it s1

/-- Embeds `handleDelete(id)`: find the item; if it exists and holds an
`audioUrl`, revoke that URL; then remove every item with that id. -/
def handleDelete (s : ProcState) (id : Nat) : ProcState :=
  let revoked' :=
    match s.items.find? (fun i => i.id = id) with
    | some item =>
      match item.audioUrl with
      | some url => s.revoked ++ [url]
      | none => s.revoked
    | none => s.revoked
  { s with items := s.items.filter (fun i => i.id ≠ id),
           revoked := revoked' }

/-- Does the character list contain `sub` as a contiguous run? -/
def containsSeq (sub : List Char) : List Char → Bool
  | [] => List.isPrefixOf sub []
  | c :: cs => List.isPrefixOf sub (c :: cs) || containsSeq sub cs

/-- JS `String.prototype.includes`. -/
def strIncludes (s sub : String) : Bool := containsSeq sub.data s.data

/-- The catch block of `generateSpeech` (`src/services/gemini.ts`): the
raw error message (defaulted when empty), with 404 / modality / 5xx
messages rewritten, otherwise rethrown unchanged. -/
def generateSpeechMessage (model rawMsg : String) : String :=
  let errorMessage := if rawMsg = "" then "Unknown error occurred" else rawMsg
  if strIncludes errorMessage "404" then
    "Model '" ++ model ++ "' not found (404). It may be deprecated or incorrect."
  else if strIncludes errorMessage "modality" || strIncludes errorMessage "AUDIO" then
    "The model '" ++ model ++
      "' does not support Audio generation. Please select a compatible TTS model."
  else if strIncludes errorMessage "500" || strIncludes errorMessage "503" then
    "Google API Service Error. Please try again later."
  else errorMessage

/-- Embeds `generateSpeech` as the queue sees it: the underlying SDK call either
yields audio (already wrapped into a WAV blob and, in our model, turned
into a fresh URL by the caller) or throws, with the message normalised by
`generateSpeechMessage`. -/
def generateSpeech (call : AudioItem → Except String Unit)
    (item : AudioItem) : Except String Unit :=
  match call item with
  | Except.ok u => Except.ok u
  | Except.error msg =>
    Except.error (generateSpeechMessage item.model msg)

/-- States reachable from `s` under automatic processing only: enqueues
(with environment-fresh ids, as `crypto.randomUUID()` guarantees),
starting the queue, effect runs, resolutions of outstanding calls in any
order, and deletions — no manual single-job trigger.  Effect runs and
call resolutions interleave freely, which includes every schedule the
browser event loop can produce. -/
inductive AutoReach (gen : AudioItem → Except String Unit) :
    ProcState → ProcState → Prop
  | refl (s : ProcState) : AutoReach gen s s
  | enqueue {s t : ProcState} (id : Nat)
      (text lab sysIns voice model : String) (createdAt : Nat)
      (h : AutoReach gen s t)
      (hfresh : ∀ j ∈ t.items, j.id ≠ id)
      (hfresh2 : ∀ it ∈ t.outstanding, it.id ≠ id) :
      AutoReach gen s (handleAddToQueue t id text lab sysIns voice model createdAt)
  | start {s t : ProcState} (h : AutoReach gen s t) :
      AutoReach gen s (startQueue t)
  | effect {s t : ProcState} (h : AutoReach gen s t) :
      AutoReach gen s (effectRun t)
  | resolve {s t : ProcState} (it : AudioItem) (h : AutoReach gen s t)
      (hout : it ∈ t.outstanding) :
      AutoReach gen s (resolveCall gen it t)
  | del {s t : ProcState} (id : Nat) (h : AutoReach gen s t) :
      AutoReach gen s (handleDelete t id)

/-- The C4 record invariant: result handle present iff SUCCESS, error
detail present iff ERROR. -/
def fieldInv (j : AudioItem) : Prop :=
  (j.audioUrl.isSome ↔ j.status = ItemStatus.SUCCESS) ∧
  (j.error.isSome ↔ j.status = ItemStatus.ERROR)

/-- Strengthened induction invariant for automatic processing: item ids
are unique, the ids of outstanding snapshots are unique (a job is
snapshot at most once — it never returns to PENDING under automatic
operations), every record satisfies `fieldInv`, and any record sharing
an outstanding snapshot's id is GENERATING. -/
def Inv (s : ProcState) : Prop :=
  (s.items.map (fun j => j.id)).Nodup ∧
  (s.outstanding.map (fun j => j.id)).Nodup ∧
  (∀ j ∈ s.items, fieldInv j) ∧
  (∀ it ∈ s.outstanding, ∀ j ∈ s.items, j.id = it.id →
    j.status = ItemStatus.GENERATING)

theorem markGenerating_ids (id : Nat) (items : List AudioItem) :
    (markGenerating id items).map (fun j => j.id) =
      items.map (fun j => j.id) := by
  simp only [markGenerating, List.map_map]
  refine List.map_congr_left ?_
  intro i _
  by_cases h : i.id = id <;> simp [h, Function.comp]

theorem applySuccess_ids (id u : Nat) (items : List AudioItem) :
    (applySuccess id u items).map (fun j => j.id) =
      items.map (fun j => j.id) := by
  simp only [applySuccess, List.map_map]
  refine List.map_congr_left ?_
  intro i _
  by_cases h : i.id = id <;> simp [h, Function.comp]

theorem applyError_ids (id : Nat) (msg : String) (items : List AudioItem) :
    (applyError id msg items).map (fun j => j.id) =
      items.map (fun j => j.id) := by
  simp only [applyError, List.map_map]
  refine List.map_congr_left ?_
  intro i _
  by_cases h : i.id = id <;> simp [h, Function.comp]

theorem markGenerating_absent (id : Nat) (items : List AudioItem)
    (h : ∀ j ∈ items, j.id ≠ id) : markGenerating id items = items := by
  conv_rhs => rw [← List.map_id items]
  refine List.map_congr_left ?_
  intro i hi
  simp [h i hi]

theorem applySuccess_absent (id u : Nat) (items : List AudioItem)
    (h : ∀ j ∈ items, j.id ≠ id) : applySuccess id u items = items := by
  conv_rhs => rw [← List.map_id items]
  refine List.map_congr_left ?_
  intro i hi
  simp [h i hi]

theorem applyError_absent (id : Nat) (msg : String) (items : List AudioItem)
    (h : ∀ j ∈ items, j.id ≠ id) : applyError id msg items = items := by
  conv_rhs => rw [← List.map_id items]
  refine List.map_congr_left ?_
  intro i hi
  simp [h i hi]

theorem find?_id_of_nodup (items : List AudioItem) (j : AudioItem)
    (hnd : (items.map (fun i => i.id)).Nodup) (hmem : j ∈ items) :
    items.find? (fun i => i.id = j.id) = some j := by
  induction items with
  | nil => simp at hmem
  | cons a as ih =>
    simp only [List.map_cons, List.nodup_cons] at hnd
    rcases List.mem_cons.mp hmem with rfl | hmem2
    · simp [List.find?_cons]
    · have ha : a.id ≠ j.id := by
        intro he
        exact hnd.1 (he ▸ List.mem_map_of_mem (fun i => i.id) hmem2)
      rw [List.find?_cons]
      simp only [ha, decide_eq_true_eq, if_neg, decide_False]
      exact ih hnd.2 hmem2

/-- C10: the manual single-job trigger with an id not present in the list
is a no-op: for every capability the state is returned unchanged — job
list and processing flag untouched — and the generation capability is
never invoked (the result does not depend on it). -/
theorem generateSingle_absent_id_noop (s : ProcState) (id : Nat)
    (habsent : ∀ j ∈ s.items, j.id ≠ id) :
    ∀ gen, handleGenerateSingle gen s id = s := by
  intro gen
  have hf : s.items.find? (fun i => i.id = id) = none := by
    refine List.find?_eq_none.mpr ?_
    intro j hj
    simp [habsent j hj]
  simp [handleGenerateSingle, generateSingleStart, hf]

/-- A concrete item for witnesses and counterexamples. -/
def mkItem (n : Nat) (st : ItemStatus) (url : Option Nat) : AudioItem :=
  { id := n, text := "text", systemInstruction := none, voice := "Kore",
    model := "gemini-2.5-flash-preview-tts", status := st, audioUrl := url,
    createdAt := 0, error := none, label := none }

/-- The always-succeeding generation capability. -/
def genOK : AudioItem → Except String Unit := fun _ => Except.ok ()

/-- A generation capability failing with a quota-exhaustion message. -/
def genFail : AudioItem → Except String Unit :=
  fun _ => Except.error "RESOURCE_EXHAUSTED"

/-- Witness for C10 at a concrete one-item state and an absent id. -/
theorem generateSingle_absent_id_noop_witness :
    handleGenerateSingle genOK
      { items := [mkItem 1 ItemStatus.PENDING none], isProcessing := false,
        outstanding := [], nextUrl := 0, revoked := [] } 2 =
      { items := [mkItem 1 ItemStatus.PENDING none], isProcessing := false,
        outstanding := [], nextUrl := 0, revoked := [] } :=
  generateSingle_absent_id_noop _ 2 (by decide) genOK

/-- C9: deleting the id of a job whose call is outstanding and then
letting that call resolve (success or failure) leaves the item list
exactly unchanged: the deleted job does not reappear and no other record
is modified. -/
theorem late_completion_after_delete (gen : AudioItem → Except String Unit)
    (s : ProcState) (it : AudioItem) (hout : it ∈ s.outstanding) :
    (resolveCall gen it (handleDelete s it.id)).items =
      (handleDelete s it.id).items ∧
    ∀ j ∈ (resolveCall gen it (handleDelete s it.id)).items, j.id ≠ it.id := by
  have habs : ∀ j ∈ (handleDelete s it.id).items, j.id ≠ it.id := by
    intro j hj
    simp only [handleDelete, List.mem_filter, decide_eq_true_eq] at hj
    exact hj.2
  have hitems : (resolveCall gen it (handleDelete s it.id)).items =
      (handleDelete s it.id).items := by
    rw [resolveCall]
    cases hg : gen it with
    | ok u => simp [applySuccess_absent _ _ _ habs]
    | error msg => simp [applyError_absent _ _ _ habs]
  refine ⟨hitems, ?_⟩
  intro j hj
  exact habs j (hitems ▸ hj)

/-- Witness for C9: a two-item state whose id-1 job has an outstanding
call; delete id 1, then let the call resolve. -/
theorem late_completion_after_delete_witness :
    (resolveCall genOK (mkItem 1 ItemStatus.PENDING none) (handleDelete
      { items := [mkItem 1 ItemStatus.GENERATING none,
                  mkItem 2 ItemStatus.PENDING none],
        isProcessing := true,
        outstanding := [mkItem 1 ItemStatus.PENDING none], nextUrl := 0,
        revoked := [] } 1)).items =
      [mkItem 2 ItemStatus.PENDING none] := by
  have h := late_completion_after_delete genOK
    { items := [mkItem 1 ItemStatus.GENERATING none,
                mkItem 2 ItemStatus.PENDING none],
      isProcessing := true,
      outstanding := [mkItem 1 ItemStatus.PENDING none], nextUrl := 0,
      revoked := [] } (mkItem 1 ItemStatus.PENDING none) (by decide)
  exact h.1.trans (by decide)

/-- C8: deleting a present id revokes the record's object URL when one is
present (computed from the record before it is removed) and removes the
record; a record without a URL is removed with no revocation; records
with other ids survive. -/
theorem handleDelete_spec (s : ProcState) (j : AudioItem)
    (hnd : (s.items.map (fun i => i.id)).Nodup) (hmem : j ∈ s.items) :
    (∀ u, j.audioUrl = some u →
      (handleDelete s j.id).revoked = s.revoked ++ [u]) ∧
    (j.audioUrl = none → (handleDelete s j.id).revoked = s.revoked) ∧
    (∀ i ∈ (handleDelete s j.id).items, i.id ≠ j.id) ∧
    (∀ i ∈ s.items, i.id ≠ j.id → i ∈ (handleDelete s j.id).items) := by
  have hf := find?_id_of_nodup s.items j hnd hmem
  refine ⟨?_, ?_, ?_, ?_⟩
  · intro u hu
    simp [handleDelete, hf, hu]
  · intro hu
    simp [handleDelete, hf, hu]
  · intro i hi
    simp only [handleDelete, List.mem_filter, decide_eq_true_eq] at hi
    exact hi.2
  · intro i hi hne
    simp only [handleDelete, List.mem_filter, decide_eq_true_eq]
    exact ⟨hi, hne⟩

/-- Witness for C8: delete the SUCCESS job holding URL 7 from a two-item
state. -/
theorem handleDelete_spec_witness :
    (handleDelete
      { items := [mkItem 1 (ItemStatus.SUCCESS) (some 7),
                  mkItem 2 ItemStatus.PENDING none],
        isProcessing := false, outstanding := [], nextUrl := 8,
        revoked := [] } 1).revoked = [7] := by
  have h := handleDelete_spec
    { items := [mkItem 1 ItemStatus.SUCCESS (some 7),
                mkItem 2 ItemStatus.PENDING none],
      isProcessing := false, outstanding := [], nextUrl := 8,
      revoked := [] } (mkItem 1 ItemStatus.SUCCESS (some 7))
    (by decide) (by decide)
  exact h.1 7 rfl

/-- The state immediately after enqueueing J1, J2, J3 in that order
(`handleAddToQueue` prepends, so the list is [J3, J2, J1]) and pressing
Process Queue. -/
def threePending (j1 j2 j3 : AudioItem) (u : Nat) (r : List Nat) : ProcState :=
  { items := [j3, j2, j1], isProcessing := true, outstanding := [],
    nextUrl := u, revoked := r }

/-- `threePending` after one effect run: J3 marked, its call issued. -/
def threeMarked1 (j1 j2 j3 : AudioItem) (u : Nat) (r : List Nat) : ProcState :=
  { items := [{ j3 with status := ItemStatus.GENERATING }, j2, j1],
    isProcessing := true, outstanding := [j3], nextUrl := u, revoked := r }

/-- `threePending` after two effect runs: J3 and J2 marked, both calls
outstanding. -/
def threeMarked2 (j1 j2 j3 : AudioItem) (u : Nat) (r : List Nat) : ProcState :=
  { items := [{ j3 with status := ItemStatus.GENERATING },
              { j2 with status := ItemStatus.GENERATING }, j1],
    isProcessing := true, outstanding := [j3, j2], nextUrl := u,
    revoked := r }

/-- `threePending` after three effect runs: all three marked, all three
calls outstanding. -/
def threeMarked3 (j1 j2 j3 : AudioItem) (u : Nat) (r : List Nat) : ProcState :=
  { items := [{ j3 with status := ItemStatus.GENERATING },
              { j2 with status := ItemStatus.GENERATING },
              { j1 with status := ItemStatus.GENERATING }],
    isProcessing := true, outstanding := [j3, j2, j1], nextUrl := u,
    revoked := r }

theorem effectRun_threePending (j1 j2 j3 : AudioItem) (u : Nat)
    (r : List Nat) (h3 : j3.status = ItemStatus.PENDING)
    (h13 : j1.id ≠ j3.id) (h23 : j2.id ≠ j3.id) :
    effectRun (threePending j1 j2 j3 u r) = threeMarked1 j1 j2 j3 u r := by
  have h31 : j3.id ≠ j1.id := fun h => h13 h.symm
  have h32 : j3.id ≠ j2.id := fun h => h23 h.symm
  simp [threePending, threeMarked1, effectRun, List.find?, h3,
    markGenerating, h13, h23, h31, h32]

theorem effectRun_threeMarked1 (j1 j2 j3 : AudioItem) (u : Nat)
    (r : List Nat) (h2 : j2.status = ItemStatus.PENDING)
    (h12 : j1.id ≠ j2.id) (h23 : j2.id ≠ j3.id) :
    effectRun (threeMarked1 j1 j2 j3 u r) = threeMarked2 j1 j2 j3 u r := by
  have h32 : j3.id ≠ j2.id := fun h => h23 h.symm
  have h21 : j2.id ≠ j1.id := fun h => h12 h.symm
  simp [threeMarked1, threeMarked2, effectRun, List.find?, h2,
    markGenerating, h12, h23, h32, h21]

theorem effectRun_threeMarked2 (j1 j2 j3 : AudioItem) (u : Nat)
    (r : List Nat) (h1 : j1.status = ItemStatus.PENDING)
    (h12 : j1.id ≠ j2.id) (h13 : j1.id ≠ j3.id) :
    effectRun (threeMarked2 j1 j2 j3 u r) = threeMarked3 j1 j2 j3 u r := by
  have h31 : j3.id ≠ j1.id := fun h => h13 h.symm
  have h21 : j2.id ≠ j1.id := fun h => h12 h.symm
  simp [threeMarked2, threeMarked3, effectRun, List.find?, h1,
    markGenerating, h12, h13, h31, h21]

theorem effectRun_threeMarked3 (j1 j2 j3 : AudioItem) (u : Nat)
    (r : List Nat) :
    effectRun (threeMarked3 j1 j2 j3 u r) =
      { threeMarked3 j1 j2 j3 u r with isProcessing := false } := by
  simp [threeMarked3, effectRun, List.find?]

/-- C2 counterexample: enqueue J1 (id 1), then J2 (id 2), then J3 (id 3)
— the list is [J3, J2, J1] — start the queue and let the effect run
once: J3, the most recently enqueued job, is the one selected (marked
GENERATING, its call issued) while J1 and J2 are still PENDING, so the
drain does not select the earliest-enqueued pending job first. -/
theorem auto_drain_not_fifo_counterexample :
    ((handleAddToQueue (handleAddToQueue (handleAddToQueue initState
        1 "J1" "" "" "v" "m" 0) 2 "J2" "" "" "v" "m" 1)
        3 "J3" "" "" "v" "m" 2).items.map (fun j => (j.id, j.status)) =
      [(3, ItemStatus.PENDING), (2, ItemStatus.PENDING),
       (1, ItemStatus.PENDING)]) ∧
    ((effectRun (startQueue (handleAddToQueue (handleAddToQueue
        (handleAddToQueue initState 1 "J1" "" "" "v" "m" 0)
        2 "J2" "" "" "v" "m" 1) 3 "J3" "" "" "v" "m" 2))).items.map
      (fun j => (j.id, j.status)) =
      [(3, ItemStatus.GENERATING), (2, ItemStatus.PENDING),
       (1, ItemStatus.PENDING)]) ∧
    ((effectRun (startQueue (handleAddToQueue (handleAddToQueue
        (handleAddToQueue initState 1 "J1" "" "" "v" "m" 0)
        2 "J2" "" "" "v" "m" 1) 3 "J3" "" "" "v" "m" 2))).outstanding.map
      (fun j => j.id) = [3]) := by
  refine ⟨?_, ?_, ?_⟩ <;> decide

/-- C2 amended: the drain selects jobs in reverse submission order.
Enqueues prepend and each effect run selects the first PENDING item in
list order — the most recently enqueued pending job — while the calls of
earlier selections may still be outstanding.  For J1, J2, J3 enqueued in
that order (list [J3, J2, J1], all PENDING, distinct ids): the selections
happen in the order J3, J2, J1, and each job reaches SUCCESS when its
own call resolves — e.g. resolving the calls in the order they were
issued turns J3, then J2, then J1 SUCCESS. -/
theorem auto_drain_reverse_selection_order
    (gen : AudioItem → Except String Unit) (hgen : ∀ i, gen i = Except.ok ())
    (j1 j2 j3 : AudioItem) (u : Nat) (r : List Nat)
    (h1 : j1.status = ItemStatus.PENDING)
    (h2 : j2.status = ItemStatus.PENDING)
    (h3 : j3.status = ItemStatus.PENDING)
    (h13 : j1.id ≠ j3.id) (h23 : j2.id ≠ j3.id) (h12 : j1.id ≠ j2.id) :
    ((effectRun (threePending j1 j2 j3 u r)).items.map (fun j => j.status) =
      [ItemStatus.GENERATING, ItemStatus.PENDING, ItemStatus.PENDING]) ∧
    ((effectRun (threePending j1 j2 j3 u r)).outstanding = [j3]) ∧
    ((effectRun (effectRun (threePending j1 j2 j3 u r))).items.map
        (fun j => j.status) =
      [ItemStatus.GENERATING, ItemStatus.GENERATING, ItemStatus.PENDING]) ∧
    ((effectRun (effectRun (effectRun (threePending j1 j2 j3 u r)))).items.map
        (fun j => j.status) =
      [ItemStatus.GENERATING, ItemStatus.GENERATING,
       ItemStatus.GENERATING]) ∧
    ((effectRun (effectRun (effectRun (threePending j1 j2 j3 u r)))).outstanding =
      [j3, j2, j1]) ∧
    ((resolveCall gen j3 (effectRun (effectRun (effectRun
        (threePending j1 j2 j3 u r))))).items.map (fun j => j.status) =
      [ItemStatus.SUCCESS, ItemStatus.GENERATING, ItemStatus.GENERATING]) ∧
    ((resolveCall gen j1 (resolveCall gen j2 (resolveCall gen j3
        (effectRun (effectRun (effectRun
          (threePending j1 j2 j3 u r))))))).items.map (fun j => j.status) =
      [ItemStatus.SUCCESS, ItemStatus.SUCCESS, ItemStatus.SUCCESS]) := by
  have h31 : j3.id ≠ j1.id := fun h => h13 h.symm
  have h32 : j3.id ≠ j2.id := fun h => h23 h.symm
  have h21 : j2.id ≠ j1.id := fun h => h12 h.symm
  have e1 := effectRun_threePending j1 j2 j3 u r h3 h13 h23
  have e2 := effectRun_threeMarked1 j1 j2 j3 u r h2 h12 h23
  have e3 := effectRun_threeMarked2 j1 j2 j3 u r h1 h12 h13
  have r1 : resolveCall gen j3 (threeMarked3 j1 j2 j3 u r) =
      { items := [{ j3 with status := ItemStatus.SUCCESS, audioUrl := some u },
          { j2 with status := ItemStatus.GENERATING },
          { j1 with status := ItemStatus.GENERATING }],
        isProcessing := true, outstanding := [j2, j1], nextUrl := u + 1,
        revoked := r } := by
    simp [threeMarked3, resolveCall, hgen, applySuccess, h13, h23, h31,
      h32, List.erase_cons_head]
  have r2 : resolveCall gen j2
      { items := [{ j3 with status := ItemStatus.SUCCESS, audioUrl := some u },
          { j2 with status := ItemStatus.GENERATING },
          { j1 with status := ItemStatus.GENERATING }],
        isProcessing := true, outstanding := [j2, j1], nextUrl := u + 1,
        revoked := r } =
      { items := [{ j3 with status := ItemStatus.SUCCESS, audioUrl := some u },
          { j2 with status := ItemStatus.SUCCESS, audioUrl := some (u + 1) },
          { j1 with status := ItemStatus.GENERATING }],
        isProcessing := true, outstanding := [j1], nextUrl := u + 2,
        revoked := r } := by
    simp [resolveCall, hgen, applySuccess, h12, h23, h32, h21,
      List.erase_cons_head]
  have r3 : resolveCall gen j1
      { items := [{ j3 with status := ItemStatus.SUCCESS, audioUrl := some u },
          { j2 with status := ItemStatus.SUCCESS, audioUrl := some (u + 1) },
          { j1 with status := ItemStatus.GENERATING }],
        isProcessing := true, outstanding := [j1], nextUrl := u + 2,
        revoked := r } =
      { items := [{ j3 with status := ItemStatus.SUCCESS, audioUrl := some u },
          { j2 with status := ItemStatus.SUCCESS, audioUrl := some (u + 1) },
          { j1 with status := ItemStatus.SUCCESS, audioUrl := some (u + 2) }],
        isProcessing := true, outstanding := [], nextUrl := u + 3,
        revoked := r } := by
    simp [resolveCall, hgen, applySuccess, h12, h13, h21, h31,
      List.erase_cons_head]
  refine ⟨?_, ?_, ?_, ?_, ?_, ?_, ?_⟩
  · rw [e1]
    simp [threeMarked1, h1, h2]
  · rw [e1]
    rfl
  · rw [e1, e2]
    simp [threeMarked2, h1]
  · rw [e1, e2, e3]
    simp [threeMarked3]
  · rw [e1, e2, e3]
    rfl
  · rw [e1, e2, e3, r1]
    simp
  · rw [e1, e2, e3, r1, r2, r3]
    simp

/-- Witness for the amended C2 at three concrete pending jobs. -/
theorem auto_drain_reverse_selection_order_witness :
    ((effectRun (threePending (mkItem 1 ItemStatus.PENDING none)
        (mkItem 2 ItemStatus.PENDING none)
        (mkItem 3 ItemStatus.PENDING none) 0 [])).items.map
      (fun j => j.status) =
      [ItemStatus.GENERATING, ItemStatus.PENDING, ItemStatus.PENDING]) ∧
    ((resolveCall genOK (mkItem 1 ItemStatus.PENDING none)
      (resolveCall genOK (mkItem 2 ItemStatus.PENDING none)
      (resolveCall genOK (mkItem 3 ItemStatus.PENDING none)
        (effectRun (effectRun (effectRun (threePending
          (mkItem 1 ItemStatus.PENDING none)
          (mkItem 2 ItemStatus.PENDING none)
          (mkItem 3 ItemStatus.PENDING none) 0 []))))))).items.map
      (fun j => j.status) =
      [ItemStatus.SUCCESS, ItemStatus.SUCCESS, ItemStatus.SUCCESS]) := by
  have h := auto_drain_reverse_selection_order genOK (fun i => rfl)
    (mkItem 1 ItemStatus.PENDING none) (mkItem 2 ItemStatus.PENDING none)
    (mkItem 3 ItemStatus.PENDING none) 0 [] rfl rfl rfl
    (by decide) (by decide) (by decide)
  exact ⟨h.1, h.2.2.2.2.2.2⟩

/-- C3 counterexample: enqueue two jobs and start the queue; the first
effect run marks J2 (id 2) GENERATING and issues its call, and the items
commit re-triggers the effect, whose next run marks J1 (id 1) GENERATING
and issues a second call while the first is still outstanding — two jobs
GENERATING at the same time, two capability calls in flight, neither
completed. -/
theorem effect_cascade_not_serialized_counterexample :
    ((effectRun (effectRun (startQueue (handleAddToQueue (handleAddToQueue
        initState 1 "J1" "" "" "v" "m" 0) 2 "J2" "" "" "v" "m" 1)))).items.map
      (fun j => (j.id, j.status)) =
      [(2, ItemStatus.GENERATING), (1, ItemStatus.GENERATING)]) ∧
    ((effectRun (effectRun (startQueue (handleAddToQueue (handleAddToQueue
        initState 1 "J1" "" "" "v" "m" 0) 2 "J2" "" "" "v" "m" 1)))).outstanding.map
      (fun j => j.id) = [2, 1]) := by
  constructor <;> decide

/-- C3 amended: automatic processing is not serialized.  Each
mark-GENERATING update re-triggers the effect, whose next run selects the
next PENDING job while the earlier calls are still awaited: from three
pending jobs, two are GENERATING concurrently after two effect runs and
all three after three, with all their calls outstanding; the next effect
run then clears the processing flag while every call is still
unresolved.  At most one selection happens per synchronous effect run,
but completions are not awaited between selections. -/
theorem effect_cascade_concurrent_generating
    (j1 j2 j3 : AudioItem) (u : Nat) (r : List Nat)
    (h1 : j1.status = ItemStatus.PENDING)
    (h2 : j2.status = ItemStatus.PENDING)
    (h3 : j3.status = ItemStatus.PENDING)
    (h13 : j1.id ≠ j3.id) (h23 : j2.id ≠ j3.id) (h12 : j1.id ≠ j2.id) :
    ((effectRun (effectRun (threePending j1 j2 j3 u r))).items.map
        (fun j => j.status) =
      [ItemStatus.GENERATING, ItemStatus.GENERATING, ItemStatus.PENDING]) ∧
    ((effectRun (effectRun (threePending j1 j2 j3 u r))).outstanding =
      [j3, j2]) ∧
    ((effectRun (effectRun (effectRun (threePending j1 j2 j3 u r)))).outstanding =
      [j3, j2, j1]) ∧
    ((effectRun (effectRun (effectRun (effectRun
        (threePending j1 j2 j3 u r))))).isProcessing = false) ∧
    ((effectRun (effectRun (effectRun (effectRun
        (threePending j1 j2 j3 u r))))).outstanding = [j3, j2, j1]) := by
  have e1 := effectRun_threePending j1 j2 j3 u r h3 h13 h23
  have e2 := effectRun_threeMarked1 j1 j2 j3 u r h2 h12 h23
  have e3 := effectRun_threeMarked2 j1 j2 j3 u r h1 h12 h13
  have e4 := effectRun_threeMarked3 j1 j2 j3 u r
  refine ⟨?_, ?_, ?_, ?_, ?_⟩
  · rw [e1, e2]
    simp [threeMarked2, h1]
  · rw [e1, e2]
    rfl
  · rw [e1, e2, e3]
    rfl
  · rw [e1, e2, e3, e4]
  · rw [e1, e2, e3, e4]
    rfl

/-- Witness for the amended C3 at three concrete pending jobs: two jobs
GENERATING concurrently after two effect runs, and the flag cleared with
all three calls outstanding after four. -/
theorem effect_cascade_concurrent_generating_witness :
    ((effectRun (effectRun (threePending (mkItem 1 ItemStatus.PENDING none)
        (mkItem 2 ItemStatus.PENDING none)
        (mkItem 3 ItemStatus.PENDING none) 0 []))).items.map
      (fun j => j.status) =
      [ItemStatus.GENERATING, ItemStatus.GENERATING, ItemStatus.PENDING]) ∧
    ((effectRun (effectRun (effectRun (effectRun (threePending
        (mkItem 1 ItemStatus.PENDING none)
        (mkItem 2 ItemStatus.PENDING none)
        (mkItem 3 ItemStatus.PENDING none) 0 []))))).isProcessing =
      false) := by
  have h := effect_cascade_concurrent_generating
    (mkItem 1 ItemStatus.PENDING none) (mkItem 2 ItemStatus.PENDING none)
    (mkItem 3 ItemStatus.PENDING none) 0 [] rfl rfl rfl
    (by decide) (by decide) (by decide)
  exact ⟨h.1, h.2.2.2.1⟩

/-- C5 counterexample: a SUCCESS job holding URL 0 is re-generated
(capability succeeds, fresh URL 1) and then deleted.  The job is gone and
the only revocation ever performed is of URL 1: the prior handle 0 was
released zero times — leaked — not exactly once. -/
theorem regenerate_leaks_prior_handle_counterexample :
    ((handleDelete (handleGenerateSingle genOK
      { items := [mkItem 1 ItemStatus.SUCCESS (some 0)],
        isProcessing := false, outstanding := [], nextUrl := 1,
        revoked := [] } 1) 1).items = []) ∧
    ((handleDelete (handleGenerateSingle genOK
      { items := [mkItem 1 ItemStatus.SUCCESS (some 0)],
        isProcessing := false, outstanding := [], nextUrl := 1,
        revoked := [] } 1) 1).revoked = [1]) := by
  constructor <;> decide

/-- C5 amended: manual re-generate on a SUCCESS job transitions it to
GENERATING and then to SUCCESS or ERROR, but never releases the prior
object URL: the regeneration leaves the revocation log unchanged and on
success overwrites the handle with the fresh one, so a later deletion
revokes only the replacement handle — the prior handle is never
revoked. -/
theorem regenerate_never_releases_prior_handle
    (gen : AudioItem → Except String Unit) (s : ProcState) (j : AudioItem)
    (u : Nat) (hnd : (s.items.map (fun i => i.id)).Nodup)
    (hmem : j ∈ s.items) (hst : j.status = ItemStatus.SUCCESS)
    (hurl : j.audioUrl = some u) :
    ((handleGenerateSingle gen s j.id).revoked = s.revoked) ∧
    (∃ mid, generateSingleStart s j.id = some (j, mid) ∧
      { j with status := ItemStatus.GENERATING } ∈ mid.items) ∧
    (gen j = Except.ok () →
      (handleDelete (handleGenerateSingle gen s j.id) j.id).revoked =
        s.revoked ++ [s.nextUrl]) := by
  have hf := find?_id_of_nodup s.items j hnd hmem
  have hstart : generateSingleStart s j.id =
      some (j, { s with items := markGenerating j.id s.items }) := by
    simp [generateSingleStart, hf]
  refine ⟨?_, ?_, ?_⟩
  · simp only [handleGenerateSingle, hstart]
    cases hg : gen j with
    | ok u2 => simp [generateSingleFinish, hg]
    | error msg => simp [generateSingleFinish, hg]
  · refine ⟨{ s with items := markGenerating j.id s.items }, hstart, ?_⟩
    have := List.mem_map_of_mem
      (fun i => if i.id = j.id then
        { i with status := ItemStatus.GENERATING } else i) hmem
    simpa [markGenerating] using this
  · intro hg
    have hfin : handleGenerateSingle gen s j.id =
        { s with
            items := (applySuccess j.id s.nextUrl (markGenerating j.id s.items)),
            nextUrl := s.nextUrl + 1 } := by
      simp [handleGenerateSingle, hstart, generateSingleFinish, hg]
    rw [hfin]
    have hnd2 : ((applySuccess j.id s.nextUrl
        (markGenerating j.id s.items)).map (fun i => i.id)).Nodup := by
      rw [applySuccess_ids, markGenerating_ids]
      exact hnd
    have hmem2 : { j with status := ItemStatus.SUCCESS, audioUrl := some s.nextUrl } ∈
        applySuccess j.id s.nextUrl (markGenerating j.id s.items) := by
      have h1 : { j with status := ItemStatus.GENERATING } ∈
          markGenerating j.id s.items := by
        have := List.mem_map_of_mem
          (fun i => if i.id = j.id then
            { i with status := ItemStatus.GENERATING } else i) hmem
        simpa [markGenerating] using this
      have := List.mem_map_of_mem
        (fun i => if i.id = j.id then
          { i with status := ItemStatus.SUCCESS, audioUrl := some s.nextUrl } else i) h1
      simpa [applySuccess] using this
    have hf2 := find?_id_of_nodup _ _ hnd2 hmem2
    simp only [handleDelete]
    simp only at hf2
    rw [hf2]

/-- Witness for the amended C5 at a concrete SUCCESS job holding URL 0. -/
theorem regenerate_never_releases_prior_handle_witness :
    ((handleGenerateSingle genOK
      { items := [mkItem 1 ItemStatus.SUCCESS (some 0)],
        isProcessing := false, outstanding := [], nextUrl := 1,
        revoked := [] } (mkItem 1 ItemStatus.SUCCESS (some 0)).id).revoked
      = []) ∧
    ((handleDelete (handleGenerateSingle genOK
      { items := [mkItem 1 ItemStatus.SUCCESS (some 0)],
        isProcessing := false, outstanding := [], nextUrl := 1,
        revoked := [] } (mkItem 1 ItemStatus.SUCCESS (some 0)).id)
        (mkItem 1 ItemStatus.SUCCESS (some 0)).id).revoked = [] ++ [1]) := by
  have h := regenerate_never_releases_prior_handle genOK
    { items := [mkItem 1 ItemStatus.SUCCESS (some 0)],
      isProcessing := false, outstanding := [], nextUrl := 1,
      revoked := [] } (mkItem 1 ItemStatus.SUCCESS (some 0)) 0
    (by decide) (by decide) rfl rfl
  exact ⟨h.1, h.2.2 rfl⟩

/-- C4 counterexample: manual re-generate of a SUCCESS job holding URL 0
first marks it GENERATING with `audioUrl` still present, and when the
capability then fails the job ends ERROR with both the stale `audioUrl`
and the new `error` present — the claimed field/status invariant fails on
both states. -/
theorem manual_regenerate_breaks_field_invariant :
    ((generateSingleStart
        { items := [mkItem 1 ItemStatus.SUCCESS (some 0)],
          isProcessing := false, outstanding := [], nextUrl := 1,
          revoked := [] } 1).map
      (fun p => p.2.items.map (fun j => (j.status, j.audioUrl))) =
      some [(ItemStatus.GENERATING, some 0)]) ∧
    ((handleGenerateSingle genFail
        { items := [mkItem 1 ItemStatus.SUCCESS (some 0)],
          isProcessing := false, outstanding := [], nextUrl := 1,
          revoked := [] } 1).items.map
      (fun j => (j.status, j.audioUrl, j.error)) =
      [(ItemStatus.ERROR, some 0, some "RESOURCE_EXHAUSTED")]) := by
  constructor <;> decide

theorem inv_initState : Inv initState := by
  refine ⟨?_, ?_, ?_, ?_⟩ <;> simp [initState]

theorem inv_startQueue (s : ProcState) (h : Inv s) : Inv (startQueue s) := by
  obtain ⟨hnd, hnd2, hfi, hi4⟩ := h
  exact ⟨hnd, hnd2, hfi, hi4⟩

theorem inv_handleAddToQueue (s : ProcState) (id : Nat)
    (text lab sysIns voice model : String) (cAt : Nat) (hInv : Inv s)
    (hfresh : ∀ j ∈ s.items, j.id ≠ id)
    (hfresh2 : ∀ it ∈ s.outstanding, it.id ≠ id) :
    Inv (handleAddToQueue s id text lab sysIns voice model cAt) := by
  by_cases ht : strTrim text = ""
  · simpa [handleAddToQueue, ht] using hInv
  · obtain ⟨hnd, hnd2, hfi, hi4⟩ := hInv
    refine ⟨?_, ?_, ?_, ?_⟩ <;>
      simp only [handleAddToQueue, if_neg ht, List.map_cons, List.mem_cons]
    · refine List.nodup_cons.mpr ⟨?_, hnd⟩
      simp only [List.mem_map, not_exists]
      rintro j ⟨hj, hid⟩
      exact hfresh j hj hid
    · exact hnd2
    · rintro j (rfl | hj)
      · exact ⟨by simp [fieldInv], by simp [fieldInv]⟩
      · exact hfi j hj
    · rintro it hit j (rfl | hj) hid
      · exact absurd hid.symm (hfresh2 it hit)
      · exact hi4 it hit j hj hid

theorem inv_effectRun (s : ProcState) (h : Inv s) : Inv (effectRun s) := by
  obtain ⟨hnd, hnd2, hfi, hi4⟩ := h
  by_cases hp : s.isProcessing
  · rw [effectRun, if_pos hp]
    cases hfind : s.items.find? (fun i => i.status = ItemStatus.PENDING) with
    | none => exact ⟨hnd, hnd2, hfi, hi4⟩
    | some nxt =>
      have hmem : nxt ∈ s.items := List.mem_of_find?_eq_some hfind
      have hpend : nxt.status = ItemStatus.PENDING := by
        have := List.find?_some hfind
        simpa using this
      have hnotin : ∀ it ∈ s.outstanding, it.id ≠ nxt.id := by
        intro it hit heq
        have := hi4 it hit nxt hmem heq.symm
        simp [hpend] at this
      refine ⟨?_, ?_, ?_, ?_⟩
      · simpa [markGenerating_ids] using hnd
      · rw [List.map_append]
        refine List.Nodup.append hnd2 (by simp) ?_
        intro a ha hb
        simp only [List.map_cons, List.map_nil, List.mem_singleton] at hb
        subst hb
        simp only [List.mem_map] at ha
        obtain ⟨it, hit, hid⟩ := ha
        exact hnotin it hit hid
      · intro j hj
        simp only [markGenerating, List.mem_map] at hj
        obtain ⟨i, hi, rfl⟩ := hj
        by_cases hid : i.id = nxt.id
        · have heq : i = nxt := List.inj_on_of_nodup_map hnd hi hmem hid
          subst heq
          have hfx := hfi i hi
          simp [fieldInv, hpend] at hfx
          simp [fieldInv, hid, hfx.1, hfx.2]
        · simpa [hid] using hfi i hi
      · intro it hit j hj hid
        simp only [markGenerating, List.mem_map] at hj
        obtain ⟨i, hi, rfl⟩ := hj
        rcases List.mem_append.mp hit with hold | hnew
        · by_cases hid2 : i.id = nxt.id
          · simp [hid2]
          · simp only [hid2, if_false] at hid ⊢
            exact hi4 it hold i hi hid
        · simp only [List.mem_singleton] at hnew
          subst hnew
          by_cases hid2 : i.id = it.id
          · simp [hid2]
          · simp only [hid2, if_false] at hid
  · rw [effectRun, if_neg hp]
    exact ⟨hnd, hnd2, hfi, hi4⟩

theorem inv_resolveCall (gen : AudioItem → Except String Unit)
    (it : AudioItem) (s : ProcState) (hout : it ∈ s.outstanding)
    (h : Inv s) : Inv (resolveCall gen it s) := by
  obtain ⟨hnd, hnd2, hfi, hi4⟩ := h
  have hsub : ((s.outstanding.erase it).map (fun j => j.id)).Nodup :=
    hnd2.sublist (List.Sublist.map (fun j => j.id)
      (s.outstanding.erase_sublist it))
  have hne : ∀ it2 ∈ s.outstanding.erase it, it2.id ≠ it.id := by
    intro it2 hit2 heq
    have hndo : s.outstanding.Nodup := hnd2.of_map
    have h2 := (List.Nodup.mem_erase_iff hndo).mp hit2
    exact h2.1 (List.inj_on_of_nodup_map hnd2 h2.2 hout heq)
  cases hg : gen it with
  | ok u =>
    rw [resolveCall]
    simp only [hg]
    refine ⟨?_, ?_, ?_, ?_⟩
    · simpa [applySuccess_ids] using hnd
    · exact hsub
    · intro j hj
      simp only [applySuccess, List.mem_map] at hj
      obtain ⟨i, hi, rfl⟩ := hj
      by_cases hid : i.id = it.id
      · have hgen2 : i.status = ItemStatus.GENERATING := hi4 it hout i hi hid
        have hfx := hfi i hi
        simp [fieldInv, hgen2] at hfx
        simp [fieldInv, hid, hfx.1, hfx.2]
      · simpa [hid] using hfi i hi
    · intro it2 hit2 j hj hid
      simp only [applySuccess, List.mem_map] at hj
      obtain ⟨i, hi, rfl⟩ := hj
      by_cases hid2 : i.id = it.id
      · exfalso
        apply hne it2 hit2
        simp only [hid2, if_true] at hid
        exact hid.symm
      · simp only [hid2, if_false] at hid ⊢
        exact hi4 it2 (List.mem_of_mem_erase hit2) i hi hid
  | error msg =>
    rw [resolveCall]
    simp only [hg]
    refine ⟨?_, ?_, ?_, ?_⟩
    · simpa [applyError_ids] using hnd
    · exact hsub
    · intro j hj
      simp only [applyError, List.mem_map] at hj
      obtain ⟨i, hi, rfl⟩ := hj
      by_cases hid : i.id = it.id
      · have hgen2 : i.status = ItemStatus.GENERATING := hi4 it hout i hi hid
        have hfx := hfi i hi
        simp [fieldInv, hgen2] at hfx
        simp [fieldInv, hid, hfx.1, hfx.2]
      · simpa [hid] using hfi i hi
    · intro it2 hit2 j hj hid
      simp only [applyError, List.mem_map] at hj
      obtain ⟨i, hi, rfl⟩ := hj
      by_cases hid2 : i.id = it.id
      · exfalso
        apply hne it2 hit2
        simp only [hid2, if_true] at hid
        exact hid.symm
      · simp only [hid2, if_false] at hid ⊢
        exact hi4 it2 (List.mem_of_mem_erase hit2) i hi hid

theorem inv_handleDelete (s : ProcState) (id : Nat) (h : Inv s) :
    Inv (handleDelete s id) := by
  obtain ⟨hnd, hnd2, hfi, hi4⟩ := h
  refine ⟨?_, ?_, ?_, ?_⟩ <;> simp only [handleDelete]
  · exact hnd.sublist ((s.items.filter_sublist).map (fun i => i.id))
  · exact hnd2
  · intro j hj
    exact hfi j (List.mem_of_mem_filter hj)
  · intro it hit j hj hid
    exact hi4 it hit j (List.mem_of_mem_filter hj) hid

theorem inv_of_autoReach (gen : AudioItem → Except String Unit)
    (s t : ProcState) (h0 : Inv s) (h : AutoReach gen s t) : Inv t := by
  induction h with
  | refl => exact h0
  | enqueue id text lab sysIns voice model cAt h hf hf2 ih =>
    exact inv_handleAddToQueue _ id text lab sysIns voice model cAt ih hf hf2
  | start h ih => exact inv_startQueue _ ih
  | effect h ih => exact inv_effectRun _ ih
  | resolve it h hout ih => exact inv_resolveCall gen it _ hout ih
  | del id h ih => exact inv_handleDelete _ id ih

/-- C4 amended: under enqueue, start, effect runs, call resolutions in
any order and deletion — no manual re-generate — every reachable record
satisfies the field/status invariant: `audioUrl` present iff SUCCESS and
`error` present iff ERROR, neither present while PENDING or GENERATING.
This covers the real automatic-processing schedules, including states
with several GENERATING records and calls resolving out of order.  The
manual re-generate path violates the invariant by keeping stale fields
(see the counterexample). -/
theorem auto_reach_field_invariant (gen : AudioItem → Except String Unit)
    (s : ProcState) (h : AutoReach gen initState s) :
    ∀ j ∈ s.items,
      (j.audioUrl.isSome ↔ j.status = ItemStatus.SUCCESS) ∧
      (j.error.isSome ↔ j.status = ItemStatus.ERROR) := by
  intro j hj
  obtain ⟨hnd, hnd2, hfi, hi4⟩ :=
    inv_of_autoReach gen initState s inv_initState h
  exact hfi j hj

/-- Witness for the amended C4 along a concrete automatic run: enqueue
one job, start the queue, run the effect (which issues the call) and let
the call resolve successfully; the resulting record has `audioUrl`
present, status SUCCESS and no error. -/
theorem auto_reach_field_invariant_witness :
    ({ id := 1, text := "hi", systemInstruction := none, voice := "v",
       model := "m", status := ItemStatus.SUCCESS, audioUrl := some 0,
       createdAt := 0, error := none,
       label := some "01" : AudioItem }.audioUrl.isSome ↔
      ({ id := 1, text := "hi", systemInstruction := none, voice := "v",
         model := "m", status := ItemStatus.SUCCESS, audioUrl := some 0,
         createdAt := 0, error := none,
         label := some "01" : AudioItem }.status = ItemStatus.SUCCESS)) ∧
    ({ id := 1, text := "hi", systemInstruction := none, voice := "v",
       model := "m", status := ItemStatus.SUCCESS, audioUrl := some 0,
       createdAt := 0, error := none,
       label := some "01" : AudioItem }.error.isSome ↔
      ({ id := 1, text := "hi", systemInstruction := none, voice := "v",
         model := "m", status := ItemStatus.SUCCESS, audioUrl := some 0,
         createdAt := 0, error := none,
         label := some "01" : AudioItem }.status = ItemStatus.ERROR)) := by
  have h0 : AutoReach genOK initState
      (handleAddToQueue initState 1 "hi" "" "" "v" "m" 0) :=
    AutoReach.enqueue 1 "hi" "" "" "v" "m" 0 (AutoReach.refl _)
      (by simp [initState]) (by simp [initState])
  have h1 := AutoReach.start h0
  have h2 := AutoReach.effect h1
  have h3 := AutoReach.resolve
    { id := 1, text := "hi", systemInstruction := none, voice := "v",
      model := "m", status := ItemStatus.PENDING, audioUrl := none,
      createdAt := 0, error := none, label := some "01" } h2 (by decide)
  exact auto_reach_field_invariant genOK _ h3
    { id := 1, text := "hi", systemInstruction := none, voice := "v",
      model := "m", status := ItemStatus.SUCCESS, audioUrl := some 0,
      createdAt := 0, error := none, label := some "01" } (by decide)

/-- C7: a failing capability call is absorbed at the job boundary: its
resolution turns exactly the snapshot's job into ERROR with a non-empty
error message, leaves every other record unchanged in place, keeps the
processing flag and the revocation log intact, removes only that call
from the outstanding set, and a following effect run still picks a
remaining PENDING job if one exists. -/
theorem capability_failure_isolated (gen : AudioItem → Except String Unit)
    (s : ProcState) (it : AudioItem) (msg : String)
    (hout : it ∈ s.outstanding) (hgen : gen it = Except.error msg) :
    (∀ k j, s.items.get? k = some j → j.id ≠ it.id →
      (resolveCall gen it s).items.get? k = some j) ∧
    (∀ k j, s.items.get? k = some j → j.id = it.id →
      (resolveCall gen it s).items.get? k =
        some { j with status := ItemStatus.ERROR, error := some (if msg = "" then "Failed to generate" else msg) }) ∧
    ((if msg = "" then "Failed to generate" else msg) ≠ "") ∧
    (resolveCall gen it s).isProcessing = s.isProcessing ∧
    (resolveCall gen it s).outstanding = s.outstanding.erase it ∧
    (resolveCall gen it s).revoked = s.revoked ∧
    (s.isProcessing = true →
      ∀ p, (resolveCall gen it s).items.find?
          (fun i => i.status = ItemStatus.PENDING) = some p →
        (effectRun (resolveCall gen it s)).outstanding =
          s.outstanding.erase it ++ [p]) := by
  have hres : resolveCall gen it s =
      { s with
          items := (applyError it.id
            (if msg = "" then "Failed to generate" else msg) s.items),
          outstanding := s.outstanding.erase it } := by
    rw [resolveCall]
    simp only [hgen]
  refine ⟨?_, ?_, ?_, ?_, ?_, ?_, ?_⟩
  · intro k j hk hne
    rw [hres]
    simp only [applyError, List.get?_map, hk, Option.map_some]
    simp [hne]
  · intro k j hk heq
    rw [hres]
    simp only [applyError, List.get?_map, hk, Option.map_some]
    simp [heq]
  · by_cases hm : msg = ""
    · simp [hm]
    · simp [hm]
  · rw [hres]
  · rw [hres]
  · rw [hres]
  · intro hp p hfp
    have h4 : (resolveCall gen it s).isProcessing = true := by
      rw [hres]
      exact hp
    rw [effectRun, if_pos h4, hfp]
    rw [hres]

/-- Witness for C7: the id-1 job's call is outstanding, the raw SDK call
fails with "RESOURCE_EXHAUSTED" (which `generateSpeech`'s message
normalisation passes through unchanged); the job becomes ERROR with that
message and the PENDING id-2 job is untouched. -/
theorem capability_failure_isolated_witness :
    ((resolveCall (generateSpeech genFail)
        (mkItem 1 ItemStatus.GENERATING none)
      { items := [mkItem 1 ItemStatus.GENERATING none,
                  mkItem 2 ItemStatus.PENDING none],
        isProcessing := true,
        outstanding := [mkItem 1 ItemStatus.GENERATING none],
        nextUrl := 0, revoked := [] }).items.get? 0 =
      some { mkItem 1 ItemStatus.GENERATING none with status := ItemStatus.ERROR, error := some "RESOURCE_EXHAUSTED" }) ∧
    ((resolveCall (generateSpeech genFail)
        (mkItem 1 ItemStatus.GENERATING none)
      { items := [mkItem 1 ItemStatus.GENERATING none,
                  mkItem 2 ItemStatus.PENDING none],
        isProcessing := true,
        outstanding := [mkItem 1 ItemStatus.GENERATING none],
        nextUrl := 0, revoked := [] }).items.get? 1 =
      some (mkItem 2 ItemStatus.PENDING none)) := by
  have h := capability_failure_isolated (generateSpeech genFail)
    { items := [mkItem 1 ItemStatus.GENERATING none,
                mkItem 2 ItemStatus.PENDING none],
      isProcessing := true,
      outstanding := [mkItem 1 ItemStatus.GENERATING none],
      nextUrl := 0, revoked := [] }
    (mkItem 1 ItemStatus.GENERATING none) "RESOURCE_EXHAUSTED"
    (by decide) rfl
  exact ⟨h.2.1 0 (mkItem 1 ItemStatus.GENERATING none) rfl rfl,
    h.1 1 (mkItem 2 ItemStatus.PENDING none) rfl (by decide)⟩

end GiminiTTS
